import Mathlib

/-!
Verification of the quote-comparison core of the VendorCompare backend
(src/server.js). The embedding models the per-file record construction
(src/server.js:227-248) and the comparison/aggregation section of the
/upload handler (src/server.js:253-303) as pure Lean functions over
rational numbers. Possibly-absent JSON fields are `Option`-valued and the
JavaScript truthiness-based fallbacks (`a || b`) are modelled explicitly.
-/

namespace VendorCompare

/-- A line item from the extraction service's JSON; fields may be missing. -/
structure LineItem where
  description : Option String
  quantity : Option ℚ
  unitPrice : Option ℚ
  lineTotal : Option ℚ
deriving Repr, DecidableEq

/-- The loosely-typed record parsed from the extraction service's JSON
(`quoteData` in src/server.js). Every field may be absent. Numeric fields
come from `JSON.parse`, so they are finite rationals when present. -/
structure QuoteData where
  vendor : Option String
  items : Option (List LineItem)
  subtotal : Option ℚ
  tax : Option ℚ
  fees : Option ℚ
  total : Option ℚ
  notes : Option String
deriving Repr, DecidableEq

/-- Per-file outcome of the extraction step: either a parsed `quoteData`,
or the error message caught by the per-file try/catch. -/
inductive FileOutcome where
  | ok (d : QuoteData)
  | failed (msg : String)
deriving Repr, DecidableEq

/-- One uploaded file together with its extraction outcome. -/
structure FileInput where
  originalname : String
  outcome : FileOutcome
deriving Repr, DecidableEq

/-- JavaScript truthiness of a possibly-absent numeric field:
`undefined` and `0` are falsy, every other (finite) number is truthy. -/
def truthyNum : Option ℚ → Bool
  | some q => q != 0
  | none => false

/-- JavaScript `a || b` where `a` is a possibly-absent numeric field and
`b` the fallback value. -/
def orNum (a : Option ℚ) (b : ℚ) : ℚ :=
  if truthyNum a then a.getD 0 else b

/-- JavaScript truthiness of a possibly-absent string field:
`undefined` and the empty string are falsy. -/
def truthyStr : Option String → Bool
  | some s => s != ""
  | none => false

/-- JavaScript `a || b` for a possibly-absent string field. -/
def orStr (a : Option String) (b : String) : String :=
  if truthyStr a then a.getD "" else b

/-- The per-file record the server builds: the success record of
src/server.js:227-236 or the error record of src/server.js:244-248.
Fields are `Option`-valued because the error record carries no
`items`/`subtotal`/`tax`/`fees`/`total`/`notes` fields (JS `undefined`),
while the success record carries no `error` field. -/
structure Quote where
  vendor : String
  items : Option (List LineItem)
  subtotal : Option ℚ
  tax : Option ℚ
  fees : Option ℚ
  total : Option ℚ
  notes : Option String
  error : Option String
  filename : String
deriving Repr, DecidableEq

/-- The body of the `req.files.map` callback (src/server.js:110-249),
restricted to what it returns: on success the record with the
truthiness fallbacks of src/server.js:227-236, on failure the error
record of src/server.js:244-248. -/
def processFile (f : FileInput) : Quote :=
  match f.outcome with
  | .ok d =>
      { vendor := orStr d.vendor f.originalname
        items := some (d.items.getD [])
        subtotal := some (orNum d.subtotal 0)
        tax := some (orNum d.tax 0)
        fees := some (orNum d.fees 0)
        total := some (orNum d.total (orNum d.subtotal 0))
        notes := some (orStr d.notes "")
        error := none
        filename := f.originalname }
  | .failed msg =>
      { vendor := f.originalname
        items := none
        subtotal := none
        tax := none
        fees := none
        total := none
        notes := none
        error := some msg
        filename := f.originalname }

/-- JavaScript `x > 0` for a possibly-absent numeric field
(`undefined > 0` evaluates to false via NaN). -/
def jsGtZero : Option ℚ → Bool
  | some q => q > 0
  | none => false

/-- JavaScript strict equality `x === n` between a possibly-absent
numeric field and a number (`undefined === n` is false). -/
def jsEqNum (a : Option ℚ) (n : ℚ) : Bool :=
  match a with
  | some q => q = n
  | none => false

/-- The filter predicate of src/server.js:254: `!q.error && q.total > 0`. -/
def isValidQuote (q : Quote) : Bool :=
  q.error.isNone && jsGtZero q.total

/-- `quotes.filter(q => !q.error && q.total > 0)` (src/server.js:254). -/
def validQuotes (qs : List Quote) : List Quote :=
  qs.filter isValidQuote

/-- `Math.min(...prices)` over a list of prices. The `[]` case is never
reached by the server (it returns early when no valid quote exists). -/
def listMin : List ℚ → ℚ
  | [] => 0
  | x :: xs => xs.foldl min x

/-- `Math.max(...prices)` over a list of prices; `[]` unreachable as above. -/
def listMax : List ℚ → ℚ
  | [] => 0
  | x :: xs => xs.foldl max x

/-- The `comparison` object of src/server.js:273-278. -/
structure Comparison where
  lowestPrice : ℚ
  highestPrice : ℚ
  averagePrice : ℚ
  priceRange : ℚ
deriving Repr, DecidableEq

/-- The `bestDeal` object serialized in the response (src/server.js:297-301). -/
structure BestDeal where
  vendor : String
  total : ℚ
  savings : ℚ
deriving Repr, DecidableEq

/-- One element of `quotesWithComparison` (src/server.js:281-285): the
original quote record spread together with the two added fields. -/
structure AnnotatedQuote where
  base : Quote
  isBestDeal : Bool
  savings : ℚ
deriving Repr, DecidableEq

/-- The JSON response of the comparison section: either the early
`success: false` response of src/server.js:256-262 (message plus the raw
quotes, no comparison, no bestDeal, no annotations), or the
`success: true` response of src/server.js:292-303. -/
inductive Response where
  | failure (message : String) (quotes : List Quote)
  | success (quotes : List AnnotatedQuote) (comparison : Comparison)
      (bestDeal : Option BestDeal)
deriving Repr, DecidableEq

/-- The map body of src/server.js:281-285:
`isBestDeal: !quote.error && quote.total === lowestPrice`,
`savings: !quote.error ? highestPrice - quote.total : 0`. -/
def annotate (lowestPrice highestPrice : ℚ) (q : Quote) : AnnotatedQuote :=
  { base := q
    isBestDeal := q.error.isNone && jsEqNum q.total lowestPrice
    savings := if q.error.isNone then highestPrice - q.total.getD 0 else 0 }

/-- The message of the early return at src/server.js:259. -/
def noValidQuotesMessage : String :=
  "Could not extract pricing from any quotes. Please check file formats."

/-- The comparison section of the /upload handler (src/server.js:253-303),
applied to the list of per-file records. -/
def compareQuotes (qs : List Quote) : Response :=
  let valid := validQuotes qs
  if valid.isEmpty then
    .failure noValidQuotesMessage qs
  else
    let prices := valid.map (fun q => q.total.getD 0)
    let lowestPrice := listMin prices
    let highestPrice := listMax prices
    let averagePrice := prices.sum / (prices.length : ℚ)
    let bd := valid.find? (fun q => jsEqNum q.total lowestPrice)
    let savings := highestPrice - lowestPrice
    let comparison : Comparison :=
      { lowestPrice := lowestPrice
        highestPrice := highestPrice
        averagePrice := averagePrice
        priceRange := highestPrice - lowestPrice }
    let quotesWithComparison := qs.map (annotate lowestPrice highestPrice)
    .success quotesWithComparison comparison
      (bd.map fun q =>
        { vendor := q.vendor, total := q.total.getD 0, savings := savings })

/-- The whole /upload data path after extraction: build the per-file
records in input order (`Promise.all` over `req.files.map` preserves
order), then run the comparison section. -/
def upload (files : List FileInput) : Response :=
  compareQuotes (files.map processFile)

/-- The `prices` list of src/server.js:264: resolved totals of the valid
quotes, in input order. -/
def pricesOf (qs : List Quote) : List ℚ :=
  (validQuotes qs).map (fun q => q.total.getD 0)

/-- The annotated quotes carried by a response (empty for the early
`success: false` response, which carries only raw quotes). -/
def annotations : Response → List AnnotatedQuote
  | .failure _ _ => []
  | .success ann _ _ => ann

/-- The `isBestDeal` flags of a response's annotated quotes, in order. -/
def markedList (r : Response) : List Bool :=
  (annotations r).map (fun aq => aq.isBestDeal)

/-- The `savings` values of a response's annotated quotes, in order. -/
def savingsList (r : Response) : List ℚ :=
  (annotations r).map (fun aq => aq.savings)

/-- The resolved totals of the quotes carried by a response, in order. -/
def quoteTotals : Response → List (Option ℚ)
  | .failure _ qs => qs.map (fun q => q.total)
  | .success ann _ _ => ann.map (fun aq => aq.base.total)

/-- The error markers of the quotes carried by a response, in order. -/
def quoteErrors : Response → List (Option String)
  | .failure _ qs => qs.map (fun q => q.error)
  | .success ann _ _ => ann.map (fun aq => aq.base.error)

/-- The comparison object of a response, when present. -/
def comparisonOf : Response → Option Comparison
  | .failure _ _ => none
  | .success _ comp _ => comp

/-- The bestDeal object of a response, when present. -/
def bestDealOf : Response → Option BestDeal
  | .failure _ _ => none
  | .success _ _ bd => bd

/-- Fallback keeping a possibly-absent number only when it is strictly
positive; used to state the claimed resolution rule. -/
def posNum (a : Option ℚ) (b : ℚ) : ℚ :=
  match a with
  | some q => if 0 < q then q else b
  | none => b

/-- The total-resolution rule as the specification words it: `raw.total`
if present and a finite number strictly greater than 0, else `raw.subtotal`
under the same condition, else 0. Stated for comparison with the code's
truthiness-based fallback in `processFile`. -/
def claimedResolveTotal (d : QuoteData) : ℚ :=
  posNum d.total (posNum d.subtotal 0)

/-- Agreement of two extraction records on every comparison-relevant field:
everything except `tax`, `fees`, `items` and `notes`. -/
def coreEqData (d1 d2 : QuoteData) : Prop :=
  d1.vendor = d2.vendor ∧ d1.subtotal = d2.subtotal ∧ d1.total = d2.total

/-- Agreement of two file inputs up to the `tax`, `fees`, `items` and
`notes` fields of their extraction records. -/
def coreEqInput (f1 f2 : FileInput) : Prop :=
  f1.originalname = f2.originalname ∧
  match f1.outcome, f2.outcome with
  | .ok d1, .ok d2 => coreEqData d1 d2
  | .failed m1, .failed m2 => m1 = m2
  | _, _ => False

/-- Agreement of two per-file records on the fields the comparison section
reads: vendor, resolved total and error marker. -/
def coreEqQuote (q1 q2 : Quote) : Prop :=
  q1.vendor = q2.vendor ∧ q1.total = q2.total ∧ q1.error = q2.error

lemma foldl_min_le_init (xs : List ℚ) : ∀ a : ℚ, xs.foldl min a ≤ a := by
  induction xs with
  | nil => intro a; simp [List.foldl]
  | cons x xs ih =>
    intro a
    calc (x :: xs).foldl min a = xs.foldl min (min a x) := rfl
    _ ≤ min a x := ih _
    _ ≤ a := min_le_left _ _

lemma foldl_min_le_mem (xs : List ℚ) :
    ∀ (a x : ℚ), x ∈ xs → xs.foldl min a ≤ x := by
  induction xs with
  | nil => intro a x hx; cases hx
  | cons y ys ih =>
    intro a x hx
    rcases List.mem_cons.mp hx with h | h
    · subst h
      calc ys.foldl min (min a x) ≤ min a x := foldl_min_le_init ys _
      _ ≤ x := min_le_right _ _
    · exact ih _ _ h

lemma foldl_min_mem (xs : List ℚ) :
    ∀ a : ℚ, xs.foldl min a = a ∨ xs.foldl min a ∈ xs := by
  induction xs with
  | nil => intro a; left; rfl
  | cons y ys ih =>
    intro a
    rcases ih (min a y) with h | h
    · rcases min_cases a y with ⟨he, _⟩ | ⟨he, _⟩
      · left
        show ys.foldl min (min a y) = a
        rw [h, he]
      · right
        show ys.foldl min (min a y) ∈ y :: ys
        rw [h, he]
        exact List.mem_cons_self _ _
    · right
      exact List.mem_cons_of_mem _ h

lemma foldl_max_ge_init (xs : List ℚ) : ∀ a : ℚ, a ≤ xs.foldl max a := by
  induction xs with
  | nil => intro a; simp [List.foldl]
  | cons x xs ih =>
    intro a
    calc a ≤ max a x := le_max_left _ _
    _ ≤ xs.foldl max (max a x) := ih _
    _ = (x :: xs).foldl max a := rfl

lemma foldl_max_ge_mem (xs : List ℚ) :
    ∀ (a x : ℚ), x ∈ xs → x ≤ xs.foldl max a := by
  induction xs with
  | nil => intro a x hx; cases hx
  | cons y ys ih =>
    intro a x hx
    rcases List.mem_cons.mp hx with h | h
    · subst h
      calc x ≤ max a x := le_max_right _ _
      _ ≤ ys.foldl max (max a x) := foldl_max_ge_init ys _
    · exact ih _ _ h

lemma foldl_max_mem (xs : List ℚ) :
    ∀ a : ℚ, xs.foldl max a = a ∨ xs.foldl max a ∈ xs := by
  induction xs with
  | nil => intro a; left; rfl
  | cons y ys ih =>
    intro a
    rcases ih (max a y) with h | h
    · rcases max_cases a y with ⟨he, _⟩ | ⟨he, _⟩
      · left
        show ys.foldl max (max a y) = a
        rw [h, he]
      · right
        show ys.foldl max (max a y) ∈ y :: ys
        rw [h, he]
        exact List.mem_cons_self _ _
    · right
      exact List.mem_cons_of_mem _ h

lemma listMin_mem : ∀ xs : List ℚ, xs ≠ [] → listMin xs ∈ xs := by
  intro xs h
  cases xs with
  | nil => exact absurd rfl h
  | cons x xs =>
    rcases foldl_min_mem xs x with h1 | h1
    · show xs.foldl min x ∈ x :: xs
      rw [h1]
      exact List.mem_cons_self _ _
    · exact List.mem_cons_of_mem _ h1

lemma listMin_le (xs : List ℚ) (x : ℚ) (hx : x ∈ xs) : listMin xs ≤ x := by
  cases xs with
  | nil => cases hx
  | cons y ys =>
    rcases List.mem_cons.mp hx with h | h
    · subst h
      exact foldl_min_le_init ys x
    · exact foldl_min_le_mem ys y x h

lemma listMax_mem : ∀ xs : List ℚ, xs ≠ [] → listMax xs ∈ xs := by
  intro xs h
  cases xs with
  | nil => exact absurd rfl h
  | cons x xs =>
    rcases foldl_max_mem xs x with h1 | h1
    · show xs.foldl max x ∈ x :: xs
      rw [h1]
      exact List.mem_cons_self _ _
    · exact List.mem_cons_of_mem _ h1

lemma le_listMax (xs : List ℚ) (x : ℚ) (hx : x ∈ xs) : x ≤ listMax xs := by
  cases xs with
  | nil => cases hx
  | cons y ys =>
    rcases List.mem_cons.mp hx with h | h
    · subst h
      exact foldl_max_ge_init ys x
    · exact foldl_max_ge_mem ys y x h

lemma find?_filter {α : Type} (l : List α) (f p : α → Bool) :
    (l.filter f).find? p = l.find? (fun a => f a && p a) := by
  induction l with
  | nil => rfl
  | cons a l ih =>
    by_cases hf : f a
    · by_cases hp : p a
      · simp [List.filter_cons, hf, List.find?_cons, hp]
      · simp [List.filter_cons, hf, List.find?_cons, hp, ih]
    · simp [List.filter_cons, hf, List.find?_cons, ih]

lemma isValidQuote_iff (q : Quote) :
    isValidQuote q = true ↔ q.error = none ∧ ∃ t, q.total = some t ∧ 0 < t := by
  unfold isValidQuote jsGtZero
  cases he : q.error <;> cases ht : q.total <;>
    simp [Option.isNone, he, ht]

lemma compareQuotes_eq_failure (qs : List Quote) (h : validQuotes qs = []) :
    compareQuotes qs = .failure noValidQuotesMessage qs := by
  simp [compareQuotes, h]

lemma compareQuotes_eq_success (qs : List Quote) (h : validQuotes qs ≠ []) :
    compareQuotes qs =
      .success (qs.map (annotate (listMin (pricesOf qs)) (listMax (pricesOf qs))))
        { lowestPrice := listMin (pricesOf qs)
          highestPrice := listMax (pricesOf qs)
          averagePrice := (pricesOf qs).sum / ((pricesOf qs).length : ℚ)
          priceRange := listMax (pricesOf qs) - listMin (pricesOf qs) }
        (((validQuotes qs).find?
            (fun q => jsEqNum q.total (listMin (pricesOf qs)))).map
          (fun q =>
            { vendor := q.vendor, total := q.total.getD 0
              savings := listMax (pricesOf qs) - listMin (pricesOf qs) })) := by
  have h2 : (validQuotes qs).isEmpty = false := by
    cases hv : validQuotes qs with
    | nil => exact absurd hv h
    | cons a l => rfl
  simp [compareQuotes, pricesOf, h2]

lemma pricesOf_ne_nil (qs : List Quote) (h : validQuotes qs ≠ []) :
    pricesOf qs ≠ [] := by
  unfold pricesOf
  intro hc
  exact h (List.map_eq_nil_iff.mp hc)

lemma mem_pricesOf_of_valid (qs : List Quote) (q : Quote)
    (hq : q ∈ validQuotes qs) : q.total.getD 0 ∈ pricesOf qs :=
  List.mem_map_of_mem _ hq

lemma processFile_coreEq (f1 f2 : FileInput) (h : coreEqInput f1 f2) :
    coreEqQuote (processFile f1) (processFile f2) := by
  obtain ⟨hname, hrest⟩ := h
  cases h1 : f1.outcome with
  | ok d1 =>
    cases h2 : f2.outcome with
    | ok d2 =>
      rw [h1, h2] at hrest
      obtain ⟨hv, hs, ht⟩ := hrest
      exact ⟨by simp [processFile, h1, h2, hv, hname],
             by simp [processFile, h1, h2, hs, ht],
             by simp [processFile, h1, h2]⟩
    | failed m2 => rw [h1, h2] at hrest; cases hrest
  | failed m1 =>
    cases h2 : f2.outcome with
    | ok d2 => rw [h1, h2] at hrest; cases hrest
    | failed m2 =>
      rw [h1, h2] at hrest
      exact ⟨by simp [processFile, h1, h2, hname],
             by simp [processFile, h1, h2],
             by simp [processFile, h1, h2, hrest]⟩

lemma isValidQuote_congr (q1 q2 : Quote) (h : coreEqQuote q1 q2) :
    isValidQuote q1 = isValidQuote q2 := by
  unfold isValidQuote
  rw [h.2.1, h.2.2]

lemma forall₂_map {α β γ δ : Type} (r : α → β → Prop) (s : γ → δ → Prop)
    (f : α → γ) (g : β → δ) (hfg : ∀ a b, r a b → s (f a) (g b)) :
    ∀ {l1 : List α} {l2 : List β}, List.Forall₂ r l1 l2 →
      List.Forall₂ s (l1.map f) (l2.map g) := by
  intro l1 l2 h
  induction h with
  | nil => exact List.Forall₂.nil
  | cons hab _ ih => exact List.Forall₂.cons (hfg _ _ hab) ih

lemma forall₂_filter {α β : Type} (r : α → β → Prop) (p : α → Bool)
    (s : β → Bool) (hps : ∀ a b, r a b → p a = s b) :
    ∀ {l1 : List α} {l2 : List β}, List.Forall₂ r l1 l2 →
      List.Forall₂ r (l1.filter p) (l2.filter s) := by
  intro l1 l2 h
  induction h with
  | nil => exact List.Forall₂.nil
  | @cons a b l1 l2 hab hl ih =>
    by_cases hpa : p a = true
    · rw [List.filter_cons_of_pos hpa,
        List.filter_cons_of_pos ((hps a b hab) ▸ hpa)]
      exact List.Forall₂.cons hab ih
    · rw [List.filter_cons_of_neg hpa,
        List.filter_cons_of_neg ((hps a b hab) ▸ hpa)]
      exact ih

lemma map_eq_of_forall₂ {α β γ : Type} (r : α → β → Prop)
    (f : α → γ) (g : β → γ) (hfg : ∀ a b, r a b → f a = g b) :
    ∀ {l1 : List α} {l2 : List β}, List.Forall₂ r l1 l2 →
      l1.map f = l2.map g := by
  intro l1 l2 h
  induction h with
  | nil => rfl
  | cons hab _ ih => simp [List.map_cons, hfg _ _ hab, ih]

lemma find?_of_forall₂ {α β : Type} (r : α → β → Prop) (p : α → Bool)
    (s : β → Bool) (hps : ∀ a b, r a b → p a = s b) :
    ∀ {l1 : List α} {l2 : List β}, List.Forall₂ r l1 l2 →
      (l1.find? p = none ∧ l2.find? s = none) ∨
      (∃ a b, l1.find? p = some a ∧ l2.find? s = some b ∧ r a b) := by
  intro l1 l2 h
  induction h with
  | nil => left; exact ⟨rfl, rfl⟩
  | @cons a b l1 l2 hab hl ih =>
    by_cases hpa : p a = true
    · right
      exact ⟨a, b, List.find?_cons_of_pos _ hpa,
        List.find?_cons_of_pos _ ((hps a b hab) ▸ hpa), hab⟩
    · rw [List.find?_cons_of_neg _ hpa,
        List.find?_cons_of_neg _ (fun hc => hpa ((hps a b hab) ▸ hc))]
      exact ih

/-- Builds an extraction record with only vendor, subtotal and total set,
the shape the claims' scenarios use. -/
def mkData (vendor : Option String) (subtotal total : Option ℚ) : QuoteData :=
  { vendor := vendor, items := none, subtotal := subtotal, tax := none
    fees := none, total := total, notes := none }

/-- A batch in which every file failed extraction. -/
def allFailedFiles : List FileInput :=
  [{ originalname := "a.pdf", outcome := .failed "x" },
   { originalname := "b.pdf", outcome := .failed "y" }]

/-- C3, counterexample. The claim says an all-invalid batch yields a result
with comparison statistics all 0, bestDeal none, and every record annotated
with isBestDeal = false and savings = 0. On the all-failed batch the code
instead takes the early return of src/server.js:256-262: a failure response
carrying the raw records — no comparison object and no annotations at all. -/
theorem C3_counterexample :
    upload allFailedFiles =
      .failure noValidQuotesMessage
        [{ vendor := "a.pdf", items := none, subtotal := none, tax := none
           fees := none, total := none, notes := none, error := some "x"
           filename := "a.pdf" },
         { vendor := "b.pdf", items := none, subtotal := none, tax := none
           fees := none, total := none, notes := none, error := some "y"
           filename := "b.pdf" }] ∧
    comparisonOf (upload allFailedFiles) = none ∧
    annotations (upload allFailedFiles) = [] := by
  refine ⟨by decide, by decide, by decide⟩

/-- C3, amended: when no record is valid (every record has an error marker
or a non-positive resolved total), the /upload handler returns the early
failure response: success = false with a fixed message, carrying every
input record unannotated and in input order; it carries no comparison
statistics and no bestDeal. -/
theorem C3_all_invalid (files : List FileInput)
    (h : ∀ q ∈ files.map processFile, q.error ≠ none ∨ q.total.getD 0 ≤ 0) :
    upload files = .failure noValidQuotesMessage (files.map processFile) := by
  unfold upload
  apply compareQuotes_eq_failure
  unfold validQuotes
  rw [List.filter_eq_nil_iff]
  intro q hq
  rw [Bool.not_eq_true, ← Bool.not_eq_true, isValidQuote_iff]
  rintro ⟨hnone, t, htot, hpos⟩
  rcases h q hq with he | hle
  · exact he hnone
  · rw [htot] at hle
    simp only [Option.getD_some] at hle
    exact absurd hpos (not_lt.mpr hle)

/-- C3, witness: the amended statement applied to the all-failed batch. -/
theorem C3_witness :
    upload allFailedFiles =
      .failure noValidQuotesMessage (allFailedFiles.map processFile) :=
  C3_all_invalid allFailedFiles (by decide)

/-- The extraction record with a negative total the C4 counterexample uses. -/
def negTotalData : QuoteData := mkData (some "N") (some 50) (some (-5))

/-- The file input wrapping `negTotalData`. -/
def negTotalFile : FileInput :=
  { originalname := "n.pdf", outcome := .ok negTotalData }

/-- C4, counterexample. The claim says the resolved total is raw.total only
when it is a finite number strictly greater than 0 (so a negative total
falls through to the subtotal, here 50, and is never used). The code's
fallback `quoteData.total || quoteData.subtotal || 0` is by JavaScript
truthiness, and -5 is truthy: the record resolves to total -5. -/
theorem C4_counterexample :
    (processFile negTotalFile).total = some (-5) ∧
    claimedResolveTotal negTotalData = 50 ∧ ¬ (0:ℚ) < -5 := by
  refine ⟨by decide, by decide, by decide⟩

/-- C4, amended: the resolved total follows the JavaScript truthiness
chain `raw.total || raw.subtotal || 0`: raw.total is used whenever it is
present and nonzero (including negative values), else raw.subtotal
whenever present and nonzero, else 0. -/
theorem C4_total_resolution (f : FileInput) (d : QuoteData)
    (h : f.outcome = .ok d) :
    (∀ t, d.total = some t → t ≠ 0 → (processFile f).total = some t) ∧
    ((d.total = none ∨ d.total = some 0) →
      (∀ s, d.subtotal = some s → s ≠ 0 → (processFile f).total = some s) ∧
      ((d.subtotal = none ∨ d.subtotal = some 0) →
        (processFile f).total = some 0)) := by
  refine ⟨?_, ?_⟩
  · intro t ht hne
    simp [processFile, h, orNum, truthyNum, ht, hne]
  · intro h0
    refine ⟨?_, ?_⟩
    · intro s hs hne
      rcases h0 with h0 | h0 <;>
        simp [processFile, h, orNum, truthyNum, h0, hs, hne]
    · intro hsub
      rcases h0 with h0 | h0 <;> rcases hsub with hsub | hsub <;>
        simp [processFile, h, orNum, truthyNum, h0, hsub]

/-- C4, witness: a record with total 70 and subtotal 30 resolves to 70. -/
theorem C4_witness :
    (processFile { originalname := "w.pdf"
                   outcome := .ok (mkData (some "W") (some 30) (some 70)) }).total =
      some 70 :=
  (C4_total_resolution
      { originalname := "w.pdf"
        outcome := .ok (mkData (some "W") (some 30) (some 70)) }
      (mkData (some "W") (some 30) (some 70)) rfl).1 70 rfl (by decide)

lemma mem_validQuotes {qs : List Quote} {q : Quote} :
    q ∈ validQuotes qs ↔ q ∈ qs ∧ isValidQuote q = true :=
  List.mem_filter

/-- A batch with two valid quotes tied at the lowest total. -/
def tieFiles : List FileInput :=
  [{ originalname := "a.pdf", outcome := .ok (mkData (some "A") none (some 200)) },
   { originalname := "b.pdf", outcome := .ok (mkData (some "B") none (some 200)) }]

/-- C1, counterexample. The claim says exactly one quote is marked
isBestDeal = true (the first in input order on ties). On a two-way tie at
the lowest total the code of src/server.js:281-285 marks every quote whose
total strictly equals lowestPrice: both quotes come back marked. -/
theorem C1_counterexample : markedList (upload tieFiles) = [true, true] := by
  decide

/-- C1, amended: when at least one valid quote exists, at least one quote
is marked isBestDeal = true, and the marked quotes are exactly the
error-free quotes whose resolved total equals comparison.lowestPrice — on
ties every tied quote is marked, not only the first; when no valid quote
exists the early failure response carries no annotations, so no quote is
marked. -/
theorem C1_marking (files : List FileInput) :
    (validQuotes (files.map processFile) = [] →
      markedList (upload files) = []) ∧
    (validQuotes (files.map processFile) ≠ [] →
      ∃ ann comp bd, upload files = .success ann comp bd ∧
        (∃ aq ∈ ann, aq.isBestDeal = true) ∧
        (∀ aq ∈ ann, aq.isBestDeal = true ↔
          aq.base.error = none ∧ aq.base.total = some comp.lowestPrice)) := by
  constructor
  · intro h
    unfold upload
    rw [compareQuotes_eq_failure _ h]
    rfl
  · intro h
    unfold upload
    rw [compareQuotes_eq_success _ h]
    refine ⟨_, _, _, rfl, ?_, ?_⟩
    · have hmem : listMin (pricesOf (files.map processFile)) ∈
          pricesOf (files.map processFile) :=
        listMin_mem _ (pricesOf_ne_nil _ h)
      obtain ⟨q, hq, hqt⟩ := List.mem_map.mp hmem
      have hqv : isValidQuote q = true := (mem_validQuotes.mp hq).2
      obtain ⟨herr, t, htot, hpos⟩ := (isValidQuote_iff q).mp hqv
      have htq : q.total = some (listMin (pricesOf (files.map processFile))) := by
        rw [htot] at hqt ⊢
        simp only [Option.getD_some] at hqt
        rw [hqt]
      refine ⟨annotate _ _ q,
        List.mem_map_of_mem _ (List.mem_of_mem_filter hq), ?_⟩
      simp [annotate, jsEqNum, herr, htq]
    · intro aq haq
      obtain ⟨q, hq, rfl⟩ := List.mem_map.mp haq
      cases he : q.error <;> cases ht : q.total <;>
        simp [annotate, jsEqNum, he, ht, Option.isNone]

/-- C1, witness: the amended statement applied to the tied batch. -/
theorem C1_witness :
    ∃ ann comp bd, upload tieFiles = .success ann comp bd ∧
      (∃ aq ∈ ann, aq.isBestDeal = true) ∧
      (∀ aq ∈ ann, aq.isBestDeal = true ↔
        aq.base.error = none ∧ aq.base.total = some comp.lowestPrice) :=
  (C1_marking tieFiles).2 (by decide)

/-- A batch with one valid quote and one error-free quote whose resolved
total is 0 (hence invalid). -/
def zeroTotalFiles : List FileInput :=
  [{ originalname := "a.pdf", outcome := .ok (mkData (some "A") none (some 100)) },
   { originalname := "z.pdf", outcome := .ok (mkData (some "Z") none (some 0)) }]

/-- C2, counterexample. The claim says an invalid quote — including one
with no error marker but a non-positive resolved total — has savings 0.
The code of src/server.js:284 computes savings = highestPrice - total for
every error-free quote: the error-free quote with resolved total 0 gets
savings 100, not 0. -/
theorem C2_counterexample :
    quoteErrors (upload zeroTotalFiles) = [none, none] ∧
    quoteTotals (upload zeroTotalFiles) = [some 100, some 0] ∧
    savingsList (upload zeroTotalFiles) = [0, 100] := by
  refine ⟨by decide, by decide, ?_⟩
  norm_num [savingsList, annotations, upload, compareQuotes, validQuotes,
    isValidQuote, jsGtZero, jsEqNum, processFile, mkData, orNum, truthyNum,
    orStr, truthyStr, listMin, listMax, annotate, List.filter, List.find?,
    Function.comp, zeroTotalFiles]

/-- C2, amended: in the success response, savings = highestPrice minus the
quote's resolved total for every quote without an error marker — whether
or not its resolved total is positive — and savings = 0 exactly for the
quotes carrying an error marker. -/
theorem C2_savings_formula (files : List FileInput)
    (h : validQuotes (files.map processFile) ≠ []) :
    ∃ ann comp bd, upload files = .success ann comp bd ∧
      ∀ aq ∈ ann,
        (aq.base.error = none →
          aq.savings = comp.highestPrice - aq.base.total.getD 0) ∧
        (∀ msg, aq.base.error = some msg → aq.savings = 0) := by
  unfold upload
  rw [compareQuotes_eq_success _ h]
  refine ⟨_, _, _, rfl, ?_⟩
  intro aq haq
  obtain ⟨q, hq, rfl⟩ := List.mem_map.mp haq
  simp only [annotate]
  constructor
  · intro he
    simp [he]
  · intro msg he
    simp [he]

/-- C2, witness: the amended statement applied to the zero-total batch. -/
theorem C2_witness :
    ∃ ann comp bd, upload zeroTotalFiles = .success ann comp bd ∧
      ∀ aq ∈ ann,
        (aq.base.error = none →
          aq.savings = comp.highestPrice - aq.base.total.getD 0) ∧
        (∀ msg, aq.base.error = some msg → aq.savings = 0) :=
  C2_savings_formula zeroTotalFiles (by decide)

/-- The two-quote batch of the specification's first scenario. -/
def scenarioFiles : List FileInput :=
  [{ originalname := "a.pdf", outcome := .ok (mkData (some "A") none (some 250)) },
   { originalname := "b.pdf", outcome := .ok (mkData (some "B") none (some 300)) }]

/-- C5: when a valid quote exists, the reported bestDeal is built from the
first record in input order that is valid and whose resolved total equals
comparison.lowestPrice (exact equality, ties by input order), its total
equals comparison.lowestPrice, and lowestPrice is a lower bound of the
valid totals. -/
theorem C5_bestDeal (files : List FileInput)
    (h : validQuotes (files.map processFile) ≠ []) :
    ∃ ann comp bd q0, upload files = .success ann comp (some bd) ∧
      (files.map processFile).find?
        (fun q => isValidQuote q && jsEqNum q.total comp.lowestPrice) = some q0 ∧
      isValidQuote q0 = true ∧
      bd.vendor = q0.vendor ∧ bd.total = q0.total.getD 0 ∧
      bd.total = comp.lowestPrice ∧
      (∀ q ∈ validQuotes (files.map processFile),
        comp.lowestPrice ≤ q.total.getD 0) := by
  unfold upload
  rw [compareQuotes_eq_success _ h]
  have hmem : listMin (pricesOf (files.map processFile)) ∈
      pricesOf (files.map processFile) :=
    listMin_mem _ (pricesOf_ne_nil _ h)
  obtain ⟨q, hq, hqt⟩ := List.mem_map.mp hmem
  have hqv : isValidQuote q = true := (mem_validQuotes.mp hq).2
  obtain ⟨herr, t, htot, hpos⟩ := (isValidQuote_iff q).mp hqv
  have htq : q.total = some (listMin (pricesOf (files.map processFile))) := by
    rw [htot] at hqt ⊢
    simp only [Option.getD_some] at hqt
    rw [hqt]
  have hsome : ((validQuotes (files.map processFile)).find?
      (fun q =>
        jsEqNum q.total (listMin (pricesOf (files.map processFile))))).isSome := by
    rw [List.find?_isSome]
    exact ⟨q, hq, by simp [jsEqNum, htq]⟩
  obtain ⟨q0, hq0⟩ := Option.isSome_iff_exists.mp hsome
  have hq0p := List.find?_some hq0
  have hq0mem : q0 ∈ validQuotes (files.map processFile) :=
    List.mem_of_find?_eq_some hq0
  have hq0v : isValidQuote q0 = true := (mem_validQuotes.mp hq0mem).2
  have hq0t : q0.total = some (listMin (pricesOf (files.map processFile))) := by
    obtain ⟨_, t0, ht0, _⟩ := (isValidQuote_iff q0).mp hq0v
    rw [ht0] at hq0p ⊢
    simpa [jsEqNum] using hq0p
  refine ⟨(files.map processFile).map
      (annotate (listMin (pricesOf (files.map processFile)))
        (listMax (pricesOf (files.map processFile)))),
    ⟨listMin (pricesOf (files.map processFile)),
      listMax (pricesOf (files.map processFile)),
      (pricesOf (files.map processFile)).sum /
        ((pricesOf (files.map processFile)).length : ℚ),
      listMax (pricesOf (files.map processFile)) -
        listMin (pricesOf (files.map processFile))⟩,
    ⟨q0.vendor, q0.total.getD 0,
      listMax (pricesOf (files.map processFile)) -
        listMin (pricesOf (files.map processFile))⟩,
    q0, ?_, ?_, hq0v, rfl, rfl, ?_, ?_⟩
  · rw [hq0]
    rfl
  · show (files.map processFile).find?
      (fun q => isValidQuote q &&
        jsEqNum q.total (listMin (pricesOf (files.map processFile)))) = some q0
    rw [← find?_filter]
    exact hq0
  · show q0.total.getD 0 = listMin (pricesOf (files.map processFile))
    simp [hq0t]
  · intro q1 hq1
    exact listMin_le _ _ (mem_pricesOf_of_valid _ _ hq1)

/-- C5, witness: the statement applied to the 250/300 scenario batch. -/
theorem C5_witness :
    ∃ ann comp bd q0, upload scenarioFiles = .success ann comp (some bd) ∧
      (scenarioFiles.map processFile).find?
        (fun q => isValidQuote q && jsEqNum q.total comp.lowestPrice) = some q0 ∧
      isValidQuote q0 = true ∧
      bd.vendor = q0.vendor ∧ bd.total = q0.total.getD 0 ∧
      bd.total = comp.lowestPrice ∧
      (∀ q ∈ validQuotes (scenarioFiles.map processFile),
        comp.lowestPrice ≤ q.total.getD 0) :=
  C5_bestDeal scenarioFiles (by decide)

/-- C6: for every non-empty batch, the quotes carried by the response —
raw quotes of the failure response or annotated quotes of the success
response — are exactly the per-file records in input order, one per input
file, so the output has the input's length and order. -/
theorem C6_order (files : List FileInput) (h : files ≠ []) :
    (∀ m qs, upload files = .failure m qs →
      qs = files.map processFile ∧ qs.length = files.length) ∧
    (∀ ann comp bd, upload files = .success ann comp bd →
      ann.map (fun aq => aq.base) = files.map processFile ∧
      ann.length = files.length) := by
  by_cases hv : validQuotes (files.map processFile) = []
  · unfold upload
    rw [compareQuotes_eq_failure _ hv]
    constructor
    · intro m qs heq
      injection heq with h1 h2
      subst h2
      exact ⟨rfl, List.length_map _ _⟩
    · intro ann comp bd heq
      exact Response.noConfusion heq
  · unfold upload
    rw [compareQuotes_eq_success _ hv]
    constructor
    · intro m qs heq
      exact Response.noConfusion heq
    · intro ann comp bd heq
      injection heq with h1 h2 h3
      subst h1
      constructor
      · rw [List.map_map]
        have hcomp : ((fun aq => aq.base) ∘
            annotate (listMin (pricesOf (files.map processFile)))
              (listMax (pricesOf (files.map processFile)))) = id :=
          funext fun q => rfl
        rw [hcomp, List.map_id]
      · rw [List.length_map, List.length_map]

/-- C6, witness: the statement applied to the tied two-file batch. -/
theorem C6_witness :
    (∀ m qs, upload tieFiles = .failure m qs →
      qs = tieFiles.map processFile ∧ qs.length = tieFiles.length) ∧
    (∀ ann comp bd, upload tieFiles = .success ann comp bd →
      ann.map (fun aq => aq.base) = tieFiles.map processFile ∧
      ann.length = tieFiles.length) :=
  C6_order tieFiles (by decide)

/-- C7: in the success response, lowestPrice and highestPrice are the
minimum and maximum of the valid quotes' resolved totals, averagePrice
times the number of valid quotes equals their sum (the arithmetic mean of
the valid totals only), and priceRange = highestPrice - lowestPrice;
the statistics are functions of the valid quotes' totals alone. -/
theorem C7_statistics (files : List FileInput)
    (h : validQuotes (files.map processFile) ≠ []) :
    ∃ ann comp bd, upload files = .success ann comp bd ∧
      comp.lowestPrice ∈ pricesOf (files.map processFile) ∧
      (∀ p ∈ pricesOf (files.map processFile), comp.lowestPrice ≤ p) ∧
      comp.highestPrice ∈ pricesOf (files.map processFile) ∧
      (∀ p ∈ pricesOf (files.map processFile), p ≤ comp.highestPrice) ∧
      comp.averagePrice * ((pricesOf (files.map processFile)).length : ℚ) =
        (pricesOf (files.map processFile)).sum ∧
      comp.priceRange = comp.highestPrice - comp.lowestPrice := by
  unfold upload
  rw [compareQuotes_eq_success _ h]
  refine ⟨_, _, _, rfl, listMin_mem _ (pricesOf_ne_nil _ h), ?_,
    listMax_mem _ (pricesOf_ne_nil _ h), ?_, ?_, rfl⟩
  · intro p hp
    exact listMin_le _ _ hp
  · intro p hp
    exact le_listMax _ _ hp
  · have hnil := pricesOf_ne_nil _ h
    have hlen : ((pricesOf (files.map processFile)).length : ℚ) ≠ 0 := by
      rw [Nat.cast_ne_zero]
      intro hc
      exact hnil (List.length_eq_zero.mp hc)
    exact div_mul_cancel₀ _ hlen

/-- C7, witness: the statement applied to the 250/300 scenario batch. -/
theorem C7_witness :
    ∃ ann comp bd, upload scenarioFiles = .success ann comp bd ∧
      comp.lowestPrice ∈ pricesOf (scenarioFiles.map processFile) ∧
      (∀ p ∈ pricesOf (scenarioFiles.map processFile), comp.lowestPrice ≤ p) ∧
      comp.highestPrice ∈ pricesOf (scenarioFiles.map processFile) ∧
      (∀ p ∈ pricesOf (scenarioFiles.map processFile), p ≤ comp.highestPrice) ∧
      comp.averagePrice * ((pricesOf (scenarioFiles.map processFile)).length : ℚ) =
        (pricesOf (scenarioFiles.map processFile)).sum ∧
      comp.priceRange = comp.highestPrice - comp.lowestPrice :=
  C7_statistics scenarioFiles (by decide)

/-- C8: the resolved display vendor is `quoteData.vendor` when that is a
non-empty string and the upload's original filename otherwise; the
error-path record always carries the filename as vendor. -/
theorem C8_vendor_resolution (f : FileInput) :
    (∀ d, f.outcome = .ok d →
      (∀ v, d.vendor = some v → v ≠ "" → (processFile f).vendor = v) ∧
      ((d.vendor = none ∨ d.vendor = some "") →
        (processFile f).vendor = f.originalname)) ∧
    (∀ m, f.outcome = .failed m →
      (processFile f).vendor = f.originalname) := by
  constructor
  · intro d hd
    constructor
    · intro v hv hne
      simp [processFile, hd, orStr, truthyStr, hv, hne]
    · intro hv
      rcases hv with hv | hv <;> simp [processFile, hd, orStr, truthyStr, hv]
  · intro m hm
    simp [processFile, hm]

/-- The record of the specification's sixth scenario: empty vendor string,
filename quote3.pdf. -/
def emptyVendorFile : FileInput :=
  { originalname := "quote3.pdf"
    outcome := .ok (mkData (some "") none (some 400)) }

/-- C8, witness: an empty vendor string falls back to the filename. -/
theorem C8_witness : (processFile emptyVendorFile).vendor = "quote3.pdf" :=
  ((C8_vendor_resolution emptyVendorFile).1
    (mkData (some "") none (some 400)) rfl).2 (Or.inr rfl)

/-- A batch with two valid quotes at distinct totals 100 and 200. -/
def distinctFiles : List FileInput :=
  [{ originalname := "a.pdf", outcome := .ok (mkData (some "A") none (some 100)) },
   { originalname := "b.pdf", outcome := .ok (mkData (some "B") none (some 200)) }]

/-- C9, counterexample. The claim says exactly the minimum-total valid
quotes have savings 0. With valid totals 100 and 200, the minimum-total
quote (100) has savings = highestPrice - total = 100, and it is the
maximum-total quote (200) that has savings 0. -/
theorem C9_counterexample :
    quoteTotals (upload distinctFiles) = [some 100, some 200] ∧
    comparisonOf (upload distinctFiles) =
      some { lowestPrice := 100, highestPrice := 200
             averagePrice := 150, priceRange := 100 } ∧
    savingsList (upload distinctFiles) = [100, 0] := by
  refine ⟨by decide, ?_, ?_⟩ <;>
    norm_num [savingsList, annotations, comparisonOf, upload, compareQuotes,
      validQuotes, isValidQuote, jsGtZero, jsEqNum, processFile, mkData,
      orNum, truthyNum, orStr, truthyStr, listMin, listMax, annotate,
      List.filter, List.find?, Function.comp, distinctFiles]

/-- C9, amended: every valid quote's savings lies between 0 and
priceRange, and among valid quotes exactly those whose resolved total
equals comparison.highestPrice have savings 0. -/
theorem C9_savings_range (files : List FileInput)
    (h : validQuotes (files.map processFile) ≠ []) :
    ∃ ann comp bd, upload files = .success ann comp bd ∧
      ∀ aq ∈ ann, isValidQuote aq.base = true →
        0 ≤ aq.savings ∧ aq.savings ≤ comp.priceRange ∧
        (aq.savings = 0 ↔ aq.base.total = some comp.highestPrice) := by
  unfold upload
  rw [compareQuotes_eq_success _ h]
  refine ⟨_, _, _, rfl, ?_⟩
  intro aq haq hvalid
  obtain ⟨q, hq, rfl⟩ := List.mem_map.mp haq
  simp only [annotate] at hvalid ⊢
  obtain ⟨herr, t, htot, hpos⟩ := (isValidQuote_iff q).mp hvalid
  have hqv : q ∈ validQuotes (files.map processFile) :=
    mem_validQuotes.mpr ⟨hq, hvalid⟩
  have hmemp : q.total.getD 0 ∈ pricesOf (files.map processFile) :=
    mem_pricesOf_of_valid _ _ hqv
  have hlo : listMin (pricesOf (files.map processFile)) ≤ q.total.getD 0 :=
    listMin_le _ _ hmemp
  have hhi : q.total.getD 0 ≤ listMax (pricesOf (files.map processFile)) :=
    le_listMax _ _ hmemp
  rw [htot] at hlo hhi
  simp only [Option.getD_some] at hlo hhi
  simp only [herr, htot, Option.isNone_none, if_true, Option.getD_some,
    Option.some.injEq]
  refine ⟨by linarith, by linarith, ?_⟩
  constructor
  · intro h0
    linarith
  · intro ht
    rw [ht]
    ring

/-- C9, witness: the amended statement applied to the 100/200 batch. -/
theorem C9_witness :
    ∃ ann comp bd, upload distinctFiles = .success ann comp bd ∧
      ∀ aq ∈ ann, isValidQuote aq.base = true →
        0 ≤ aq.savings ∧ aq.savings ≤ comp.priceRange ∧
        (aq.savings = 0 ↔ aq.base.total = some comp.highestPrice) :=
  C9_savings_range distinctFiles (by decide)

/-- C10: two batches whose records agree on everything except the tax,
fees, items and notes fields produce identical comparison statistics,
identical bestDeal, and pointwise identical isBestDeal and savings
annotations: those fields are carried through but never influence the
comparison. -/
theorem C10_noninterference (files1 files2 : List FileInput)
    (h : List.Forall₂ coreEqInput files1 files2) :
    comparisonOf (upload files1) = comparisonOf (upload files2) ∧
    bestDealOf (upload files1) = bestDealOf (upload files2) ∧
    markedList (upload files1) = markedList (upload files2) ∧
    savingsList (upload files1) = savingsList (upload files2) := by
  have hq : List.Forall₂ coreEqQuote (files1.map processFile)
      (files2.map processFile) :=
    forall₂_map _ _ _ _ processFile_coreEq h
  have hvalid : List.Forall₂ coreEqQuote (validQuotes (files1.map processFile))
      (validQuotes (files2.map processFile)) :=
    forall₂_filter _ _ _ isValidQuote_congr hq
  have hprices : pricesOf (files1.map processFile) =
      pricesOf (files2.map processFile) :=
    map_eq_of_forall₂ _ _ _ (fun a b hab => by rw [hab.2.1]) hvalid
  by_cases hv : validQuotes (files1.map processFile) = []
  · have hv2 : validQuotes (files2.map processFile) = [] := by
      rw [hv] at hvalid
      exact List.forall₂_nil_left_iff.mp hvalid
    unfold upload
    rw [compareQuotes_eq_failure _ hv, compareQuotes_eq_failure _ hv2]
    exact ⟨rfl, rfl, rfl, rfl⟩
  · have hv2 : validQuotes (files2.map processFile) ≠ [] := by
      intro hc
      rw [hc] at hvalid
      exact hv (List.forall₂_nil_right_iff.mp hvalid)
    unfold upload
    rw [compareQuotes_eq_success _ hv, compareQuotes_eq_success _ hv2,
      ← hprices]
    have hann : List.Forall₂
        (fun aq1 aq2 => aq1.isBestDeal = aq2.isBestDeal ∧
          aq1.savings = aq2.savings)
        ((files1.map processFile).map
          (annotate (listMin (pricesOf (files1.map processFile)))
            (listMax (pricesOf (files1.map processFile)))))
        ((files2.map processFile).map
          (annotate (listMin (pricesOf (files1.map processFile)))
            (listMax (pricesOf (files1.map processFile))))) :=
      forall₂_map coreEqQuote
        (fun aq1 aq2 => aq1.isBestDeal = aq2.isBestDeal ∧
          aq1.savings = aq2.savings)
        (annotate (listMin (pricesOf (files1.map processFile)))
          (listMax (pricesOf (files1.map processFile))))
        (annotate (listMin (pricesOf (files1.map processFile)))
          (listMax (pricesOf (files1.map processFile))))
        (fun a b hab =>
          ⟨by simp [annotate, jsEqNum, hab.2.1, hab.2.2],
           by simp [annotate, hab.2.1, hab.2.2]⟩)
        hq
    refine ⟨rfl, ?_, ?_, ?_⟩
    · show Option.map _ ((validQuotes (files1.map processFile)).find?
          (fun q => jsEqNum q.total (listMin (pricesOf (files1.map processFile))))) =
        Option.map _ ((validQuotes (files2.map processFile)).find?
          (fun q => jsEqNum q.total (listMin (pricesOf (files1.map processFile)))))
      rcases find?_of_forall₂ coreEqQuote
          (fun q => jsEqNum q.total (listMin (pricesOf (files1.map processFile))))
          (fun q => jsEqNum q.total (listMin (pricesOf (files1.map processFile))))
          (fun a b hab => by simp only [hab.2.1]) hvalid with
          ⟨h1, h2⟩ | ⟨a, b, h1, h2, hab⟩
      · rw [h1, h2]
      · rw [h1, h2]
        simp [hab.1, hab.2.1]
    · show ((files1.map processFile).map
          (annotate (listMin (pricesOf (files1.map processFile)))
            (listMax (pricesOf (files1.map processFile))))).map
          (fun aq => aq.isBestDeal) =
        ((files2.map processFile).map
          (annotate (listMin (pricesOf (files1.map processFile)))
            (listMax (pricesOf (files1.map processFile))))).map
          (fun aq => aq.isBestDeal)
      exact map_eq_of_forall₂
        (fun aq1 aq2 => aq1.isBestDeal = aq2.isBestDeal ∧
          aq1.savings = aq2.savings) _ _
        (fun a b hab => hab.1) hann
    · show ((files1.map processFile).map
          (annotate (listMin (pricesOf (files1.map processFile)))
            (listMax (pricesOf (files1.map processFile))))).map
          (fun aq => aq.savings) =
        ((files2.map processFile).map
          (annotate (listMin (pricesOf (files1.map processFile)))
            (listMax (pricesOf (files1.map processFile))))).map
          (fun aq => aq.savings)
      exact map_eq_of_forall₂
        (fun aq1 aq2 => aq1.isBestDeal = aq2.isBestDeal ∧
          aq1.savings = aq2.savings) _ _
        (fun a b hab => hab.2) hann

/-- First batch of the C10 witness: tax 5, fees 2, one line item, a note. -/
def taxedFiles : List FileInput :=
  [{ originalname := "a.pdf"
     outcome := .ok
       { vendor := some "A"
         items := some [{ description := some "widget", quantity := some 1
                          unitPrice := some 100, lineTotal := some 100 }]
         subtotal := none, tax := some 5, fees := some 2
         total := some 100, notes := some "rush order" } },
   { originalname := "b.pdf", outcome := .ok (mkData (some "B") none (some 200)) }]

/-- Second batch of the C10 witness: same records except tax 99, fees 77,
no items, no notes. -/
def untaxedFiles : List FileInput :=
  [{ originalname := "a.pdf"
     outcome := .ok
       { vendor := some "A", items := none
         subtotal := none, tax := some 99, fees := some 77
         total := some 100, notes := none } },
   { originalname := "b.pdf", outcome := .ok (mkData (some "B") none (some 200)) }]

/-- C10, witness: the statement applied to the two batches that differ
only in tax, fees, items and notes. -/
theorem C10_witness :
    comparisonOf (upload taxedFiles) = comparisonOf (upload untaxedFiles) ∧
    bestDealOf (upload taxedFiles) = bestDealOf (upload untaxedFiles) ∧
    markedList (upload taxedFiles) = markedList (upload untaxedFiles) ∧
    savingsList (upload taxedFiles) = savingsList (upload untaxedFiles) :=
  C10_noninterference taxedFiles untaxedFiles
    (List.Forall₂.cons ⟨rfl, rfl, rfl, rfl⟩
      (List.Forall₂.cons ⟨rfl, rfl, rfl, rfl⟩ List.Forall₂.nil))

end VendorCompare
